import Mathlib

/-!
Shallow embedding of `src/contracts/ClaudeCodeCertificate.sol`
(soulbound ERC-721 certificate registry) and proofs of the spec's claims.

Addresses are modelled as natural numbers with `0` the zero address,
strings as Lean `String`, `uint256` values as `Nat` (no arithmetic in the
contract ever approaches `2^256`, the only arithmetic is the token counter
increment, so overflow is not reachable), and `block.timestamp` as an
explicit `now : Nat` argument supplied by the environment.

Solidity `revert` semantics are embedded by having every mutating
operation return `Except Err CState`: on `.error` no new state is
produced, which is exactly the all-or-nothing atomicity the EVM gives a
reverted call.

The contract inherits from OpenZeppelin `ERC721URIStorage` and
`AccessControl`, whose sources are not part of this repository. The parts
of that base that the contract's behaviour depends on (`_exists`,
`_safeMint`, the transfer entry points funnelling through
`_beforeTokenTransfer`, and role-gated `grantRole`/`revokeRole`) are
modelled from the spec, which describes them in §3, §4.1 and §9.
-/

namespace ClaudeCodeCertificate

/-- External account identifier; `0` is the zero address. -/
abbrev Addr := Nat

/-- Participant record, from the `Participant` struct (lines 23–27).
Solidity mapping defaults give `name = ""`, `registeredAt = 0`,
`isRegistered = false` for an address never written. -/
structure Participant where
  name : String
  registeredAt : Nat
  isRegistered : Bool
deriving Repr, DecidableEq

/-- Zero value of a `Participant` slot (Solidity mapping default). -/
def Participant.empty : Participant :=
  { name := "", registeredAt := 0, isRegistered := false }

/-- Certificate record, from the `Certificate` struct (lines 30–36). -/
structure Certificate where
  recipient : Addr
  contentHash : String
  cohort : String
  issuedAt : Nat
  isRevoked : Bool
deriving Repr, DecidableEq

/-- Zero value of a `Certificate` slot (Solidity mapping default). -/
def Certificate.empty : Certificate :=
  { recipient := 0, contentHash := "", cohort := "", issuedAt := 0, isRevoked := false }

/-- Failure taxonomy of spec §7. `ZeroAddress` and `AlreadyMinted` embed
the OpenZeppelin `_mint` guards ("mint to the zero address", "token
already minted"); the others are the contract's own `require` reverts:
`Unauthorized` = `onlyRole` revert, `AlreadyRegistered` = line 72,
`InvalidArgument` = lines 73/99/100, `NotRegistered` = line 98,
`NotFound` = lines 129/181, `AlreadyRevoked` = line 130,
`NonTransferable` = line 197. -/
inductive Err where
  | Unauthorized
  | AlreadyRegistered
  | InvalidArgument
  | NotRegistered
  | NotFound
  | AlreadyRevoked
  | NonTransferable
  | ZeroAddress
  | AlreadyMinted
deriving Repr, DecidableEq

/-- The two role identifiers of the contract: `DEFAULT_ADMIN_ROLE` and
`ISSUER_ROLE` (line 17 and the AccessControl base). -/
inductive Role where
  | admin
  | issuer
deriving Repr, DecidableEq

/-- Full contract storage: the contract's own state (lines 20, 39–41)
plus the inherited ERC-721 owner map, the `ERC721URIStorage` URI map and
the `AccessControl` role relation. -/
structure CState where
  tokenIdCounter : Nat
  participants : Addr → Participant
  certificates : Nat → Certificate
  participantCertificates : Addr → List Nat
  owners : Nat → Addr
  tokenURIs : Nat → String
  roles : Role → Addr → Bool

/-- Constructor state (lines 61–64): empty storage, deployer holding both
`DEFAULT_ADMIN_ROLE` and `ISSUER_ROLE`. -/
def initState (deployer : Addr) : CState :=
  { tokenIdCounter := 0
    participants := fun _ => Participant.empty
    certificates := fun _ => Certificate.empty
    participantCertificates := fun _ => []
    owners := fun _ => 0
    tokenURIs := fun _ => ""
    roles := fun _ a => a = deployer }

/-- Modelled from the spec: ERC-721 `_exists` (OpenZeppelin base, not in
`src/`) — a token exists iff its owner slot is nonzero. -/
def existsToken (s : CState) (tokenId : Nat) : Bool :=
  s.owners tokenId != 0

/-- Modelled from the spec: AccessControl `hasRole` query (OpenZeppelin
base, not in `src/`). -/
def hasRole (s : CState) (role : Role) (a : Addr) : Bool :=
  s.roles role a

/-- The `_beforeTokenTransfer` override (lines 188–198): the single choke
point every mint and transfer funnels through; it allows minting
(`fromAddr = 0`) and rejects every other move with `NonTransferable`. -/
def beforeTokenTransfer (fromAddr _toAddr : Addr) (_tokenId : Nat) : Except Err Unit :=
  if fromAddr = 0 then .ok () else .error .NonTransferable

/-- `registerParticipant` (lines 71–82), with the `onlyRole(ISSUER_ROLE)`
modifier checked first, then the two `require`s in source order. -/
def registerParticipant (s : CState) (caller participant : Addr) (name : String)
    (now : Nat) : Except Err CState :=
  if !hasRole s .issuer caller then .error .Unauthorized
  else if (s.participants participant).isRegistered then .error .AlreadyRegistered
  else if name = "" then .error .InvalidArgument
  else .ok { s with
    participants := fun a =>
      if a = participant then
        { name := name, registeredAt := now, isRegistered := true }
      else s.participants a }

/-- `issueCertificate` (lines 92–122): role gate, the three `require`s in
source order, counter pre-increment, `_safeMint` (modelled from the spec:
zero-address and already-minted guards then the `beforeTokenTransfer`
choke point with `fromAddr = 0`), `_setTokenURI`, the certificate record,
and the reverse-index append. A revert at any point yields `.error` and
no state, embedding EVM rollback. -/
def issueCertificate (s : CState) (caller recipient : Addr)
    (tokenURI contentHash cohort : String) (now : Nat) : Except Err (Nat × CState) :=
  if !hasRole s .issuer caller then .error .Unauthorized
  else if !(s.participants recipient).isRegistered then .error .NotRegistered
  else if tokenURI = "" then .error .InvalidArgument
  else if contentHash = "" then .error .InvalidArgument
  else
    let tokenId := s.tokenIdCounter + 1
    if recipient = 0 then .error .ZeroAddress
    else if existsToken s tokenId then .error .AlreadyMinted
    else
      match beforeTokenTransfer 0 recipient tokenId with
      | .error e => .error e
      | .ok _ => .ok (tokenId, { s with
          tokenIdCounter := tokenId
          owners := fun t => if t = tokenId then recipient else s.owners t
          tokenURIs := fun t => if t = tokenId then tokenURI else s.tokenURIs t
          certificates := fun t =>
            if t = tokenId then
              { recipient := recipient, contentHash := contentHash, cohort := cohort,
                issuedAt := now, isRevoked := false }
            else s.certificates t
          participantCertificates := fun a =>
            if a = recipient then s.participantCertificates a ++ [tokenId]
            else s.participantCertificates a })

/-- `revokeCertificate` (lines 128–135): role gate, existence check,
not-already-revoked check, then the one-way flag flip. -/
def revokeCertificate (s : CState) (caller : Addr) (tokenId : Nat)
    (_now : Nat) : Except Err CState :=
  if !hasRole s .issuer caller then .error .Unauthorized
  else if !existsToken s tokenId then .error .NotFound
  else if (s.certificates tokenId).isRevoked then .error .AlreadyRevoked
  else .ok { s with
    certificates := fun t =>
      if t = tokenId then { s.certificates tokenId with isRevoked := true }
      else s.certificates t }

/-- `verifyCertificate` (lines 146–163): sentinel tuple for a nonexistent
token, otherwise the stored fields with `isValid = !isRevoked`. -/
def verifyCertificate (s : CState) (tokenId : Nat) :
    Bool × Addr × String × String × Nat :=
  if !existsToken s tokenId then (false, 0, "", "", 0)
  else
    let cert := s.certificates tokenId
    (!cert.isRevoked, cert.recipient, cert.contentHash, cert.cohort, cert.issuedAt)

/-- `getParticipantCertificates` (lines 170–172). -/
def getParticipantCertificates (s : CState) (participant : Addr) : List Nat :=
  s.participantCertificates participant

/-- ERC-5192 `locked` (lines 180–183). -/
def locked (s : CState) (tokenId : Nat) : Except Err Bool :=
  if !existsToken s tokenId then .error .NotFound
  else .ok true

/-- Modelled from the spec: the ERC-721 `transferFrom` entry point
(OpenZeppelin base, not in `src/`). Per spec §4.1, any attempt to move a
certificate between addresses funnels through the single
`beforeTokenTransfer` choke point with the token's current owner as the
source, "regardless of caller identity", and a nonexistent token is a
standard invalid-token failure. -/
def transferFrom (s : CState) (_caller toAddr : Addr) (tokenId : Nat) :
    Except Err CState :=
  if !existsToken s tokenId then .error .NotFound
  else
    match beforeTokenTransfer (s.owners tokenId) toAddr tokenId with
    | .error e => .error e
    | .ok _ => .ok { s with
        owners := fun t => if t = tokenId then toAddr else s.owners t }

/-- Modelled from the spec: `safeTransferFrom(from, to, tokenId)` — same
choke point as `transferFrom`. -/
def safeTransferFrom (s : CState) (caller toAddr : Addr) (tokenId : Nat) :
    Except Err CState :=
  transferFrom s caller toAddr tokenId

/-- Modelled from the spec: `safeTransferFrom(from, to, tokenId, data)` —
same choke point, the extra payload is ignored by the registry. -/
def safeTransferFromWithData (s : CState) (caller toAddr : Addr) (tokenId : Nat)
    (_data : String) : Except Err CState :=
  transferFrom s caller toAddr tokenId

/-- Modelled from the spec: AccessControl `grantRole`, admin-gated,
idempotent (no failure when the role is already held). -/
def grantRole (s : CState) (caller : Addr) (role : Role) (a : Addr) :
    Except Err CState :=
  if !hasRole s .admin caller then .error .Unauthorized
  else .ok { s with
    roles := fun r x => if r = role ∧ x = a then true else s.roles r x }

/-- Modelled from the spec: AccessControl `revokeRole`, admin-gated. -/
def revokeRole (s : CState) (caller : Addr) (role : Role) (a : Addr) :
    Except Err CState :=
  if !hasRole s .admin caller then .error .Unauthorized
  else .ok { s with
    roles := fun r x => if r = role ∧ x = a then false else s.roles r x }

/-- One external call to the registry: the full mutating surface of §4.1. -/
inductive Op where
  | register (caller participant : Addr) (name : String) (now : Nat)
  | issue (caller recipient : Addr) (tokenURI contentHash cohort : String) (now : Nat)
  | revoke (caller : Addr) (tokenId : Nat) (now : Nat)
  | transfer (caller toAddr : Addr) (tokenId : Nat)
  | safeTransfer (caller toAddr : Addr) (tokenId : Nat)
  | safeTransferData (caller toAddr : Addr) (tokenId : Nat) (data : String)
  | grant (caller : Addr) (role : Role) (a : Addr)
  | revokeR (caller : Addr) (role : Role) (a : Addr)

/-- Outcome of one call: the post-state (equal to the pre-state when the
call reverted), the revert reason if any, and the `tokenId` returned by a
successful `issueCertificate`. -/
structure StepResult where
  state : CState
  err : Option Err
  ret : Option Nat

/-- Executes one call against a state, embedding EVM revert semantics:
a reverted call leaves the pre-state. -/
def step (s : CState) : Op → StepResult
  | .register caller participant name now =>
    match registerParticipant s caller participant name now with
    | .ok s' => ⟨s', none, none⟩
    | .error e => ⟨s, some e, none⟩
  | .issue caller recipient tokenURI contentHash cohort now =>
    match issueCertificate s caller recipient tokenURI contentHash cohort now with
    | .ok (t, s') => ⟨s', none, some t⟩
    | .error e => ⟨s, some e, none⟩
  | .revoke caller tokenId now =>
    match revokeCertificate s caller tokenId now with
    | .ok s' => ⟨s', none, none⟩
    | .error e => ⟨s, some e, none⟩
  | .transfer caller toAddr tokenId =>
    match transferFrom s caller toAddr tokenId with
    | .ok s' => ⟨s', none, none⟩
    | .error e => ⟨s, some e, none⟩
  | .safeTransfer caller toAddr tokenId =>
    match safeTransferFrom s caller toAddr tokenId with
    | .ok s' => ⟨s', none, none⟩
    | .error e => ⟨s, some e, none⟩
  | .safeTransferData caller toAddr tokenId data =>
    match safeTransferFromWithData s caller toAddr tokenId data with
    | .ok s' => ⟨s', none, none⟩
    | .error e => ⟨s, some e, none⟩
  | .grant caller role a =>
    match grantRole s caller role a with
    | .ok s' => ⟨s', none, none⟩
    | .error e => ⟨s, some e, none⟩
  | .revokeR caller role a =>
    match revokeRole s caller role a with
    | .ok s' => ⟨s', none, none⟩
    | .error e => ⟨s, some e, none⟩

/-- Runs a sequence of calls. -/
def exec (s : CState) : List Op → CState
  | [] => s
  | op :: rest => exec (step s op).state rest

/-- The `tokenId`s returned by the successful `issueCertificate` calls of
a trace, in call order. -/
def issuedIds (s : CState) : List Op → List Nat
  | [] => []
  | op :: rest =>
    match (step s op).ret with
    | some t => t :: issuedIds (step s op).state rest
    | none => issuedIds (step s op).state rest

/-- The `tokenId`s returned by the successful `issueCertificate` calls of
a trace whose recipient is `r`, in call order. -/
def issuedTo (s : CState) (r : Addr) : List Op → List Nat
  | [] => []
  | op :: rest =>
    match op, (step s op).ret with
    | .issue _ recipient _ _ _ _, some t =>
      if recipient = r then t :: issuedTo (step s op).state r rest
      else issuedTo (step s op).state r rest
    | _, _ => issuedTo (step s op).state r rest

/-- Worked example used to exercise the theorems on concrete inputs:
deployment by address `1`, registration of address `2`, one issuance and
one revocation (the end-to-end scenario of spec §8). -/
def wS0 : CState := initState 1

/-- State after registering address `2` as `"Alice"` at time 5. -/
def wS1 : CState := (step wS0 (.register 1 2 "Alice" 5)).state

/-- State after issuing certificate 1 to address `2` at time 6. -/
def wS2 : CState :=
  (step wS1 (.issue 1 2 "ipfs://X" "sha256:deadbeef" "2024-Q1" 6)).state

/-- State after revoking certificate 1 at time 7. -/
def wS3 : CState := (step wS2 (.revoke 1 1 7)).state

/-- State invariant of the registry: a token exists exactly when its id is
in `1..counter`, the ERC-721 owner of every existing token is the stored
certificate's recipient, and certificate slots above the counter are
untouched (still the mapping default). -/
def Inv (s : CState) : Prop :=
  (∀ t, s.owners t ≠ 0 ↔ 1 ≤ t ∧ t ≤ s.tokenIdCounter) ∧
  (∀ t, s.owners t ≠ 0 → s.owners t = (s.certificates t).recipient) ∧
  (∀ t, s.tokenIdCounter < t → s.certificates t = Certificate.empty)

/-! ### Anatomy of each operation -/

/-- Successful registration: the preconditions held and the only change is
the new participant record. -/
theorem registerParticipant_ok {s : CState} {caller participant : Addr} {name : String}
    {now : Nat} {s' : CState}
    (h : registerParticipant s caller participant name now = .ok s') :
    hasRole s .issuer caller = true ∧
    (s.participants participant).isRegistered = false ∧
    name ≠ "" ∧
    s' = { s with participants := fun a =>
      if a = participant then { name := name, registeredAt := now, isRegistered := true }
      else s.participants a } := by
  unfold registerParticipant at h
  split at h
  · exact Except.noConfusion h
  rename_i h1
  split at h
  · exact Except.noConfusion h
  rename_i h2
  split at h
  · exact Except.noConfusion h
  rename_i h3
  injection h with h4
  exact ⟨by simpa using h1, by simpa using h2, h3, h4.symm⟩

/-- Successful issuance: the preconditions held, the returned id is the
pre-incremented counter, and the state change is exactly the mint, the
URI write, the certificate record and the reverse-index append. -/
theorem issueCertificate_ok {s : CState} {caller recipient : Addr}
    {tokenURI contentHash cohort : String} {now : Nat} {t : Nat} {s' : CState}
    (h : issueCertificate s caller recipient tokenURI contentHash cohort now = .ok (t, s')) :
    hasRole s .issuer caller = true ∧
    (s.participants recipient).isRegistered = true ∧
    tokenURI ≠ "" ∧
    contentHash ≠ "" ∧
    recipient ≠ 0 ∧
    s.owners (s.tokenIdCounter + 1) = 0 ∧
    t = s.tokenIdCounter + 1 ∧
    s' = { s with
      tokenIdCounter := t
      owners := fun u => if u = t then recipient else s.owners u
      tokenURIs := fun u => if u = t then tokenURI else s.tokenURIs u
      certificates := fun u =>
        if u = t then
          { recipient := recipient, contentHash := contentHash, cohort := cohort,
            issuedAt := now, isRevoked := false }
        else s.certificates u
      participantCertificates := fun a =>
        if a = recipient then s.participantCertificates a ++ [t]
        else s.participantCertificates a } := by
  unfold issueCertificate at h
  split at h
  · exact Except.noConfusion h
  rename_i h1
  split at h
  · exact Except.noConfusion h
  rename_i h2
  split at h
  · exact Except.noConfusion h
  rename_i h3
  split at h
  · exact Except.noConfusion h
  rename_i h4
  split at h
  · exact Except.noConfusion h
  rename_i h5
  dsimp only at h
  split at h
  · exact Except.noConfusion h
  rename_i h6
  split at h
  · exact Except.noConfusion h
  injection h with h7
  injection h7 with ht hs
  refine ⟨by simpa using h1, by simpa using h2, h3, h4, h5,
    by simpa [existsToken] using h6, ht.symm, ?_⟩
  rw [← hs, ← ht]

/-- Successful revocation: the token existed, was not yet revoked, and the
only change is the one-way flag flip on that certificate. -/
theorem revokeCertificate_ok {s : CState} {caller : Addr} {tokenId now : Nat} {s' : CState}
    (h : revokeCertificate s caller tokenId now = .ok s') :
    hasRole s .issuer caller = true ∧
    s.owners tokenId ≠ 0 ∧
    (s.certificates tokenId).isRevoked = false ∧
    s' = { s with certificates := fun t =>
      if t = tokenId then { s.certificates tokenId with isRevoked := true }
      else s.certificates t } := by
  unfold revokeCertificate at h
  split at h
  · exact Except.noConfusion h
  rename_i h1
  split at h
  · exact Except.noConfusion h
  rename_i h2
  split at h
  · exact Except.noConfusion h
  rename_i h3
  injection h with h4
  exact ⟨by simpa using h1, by simpa [existsToken] using h2, by simpa using h3, h4.symm⟩

/-- Closed form of `transferFrom`: it reverts on every input — `NotFound`
on a nonexistent token, the choke point's `NonTransferable` on an
existing one. -/
theorem transferFrom_eq (s : CState) (caller toAddr : Addr) (tokenId : Nat) :
    transferFrom s caller toAddr tokenId =
      .error (if s.owners tokenId = 0 then Err.NotFound else Err.NonTransferable) := by
  unfold transferFrom beforeTokenTransfer existsToken
  by_cases h : s.owners tokenId = 0 <;> simp [h]

/-- Successful `grantRole` only changes the role relation. -/
theorem grantRole_ok {s : CState} {caller : Addr} {role : Role} {a : Addr} {s' : CState}
    (h : grantRole s caller role a = .ok s') :
    s' = { s with roles := fun r x => if r = role ∧ x = a then true else s.roles r x } := by
  unfold grantRole at h
  split at h
  · exact Except.noConfusion h
  injection h with h1
  exact h1.symm

/-- Successful `revokeRole` only changes the role relation. -/
theorem revokeRole_ok {s : CState} {caller : Addr} {role : Role} {a : Addr} {s' : CState}
    (h : revokeRole s caller role a = .ok s') :
    s' = { s with roles := fun r x => if r = role ∧ x = a then false else s.roles r x } := by
  unfold revokeRole at h
  split at h
  · exact Except.noConfusion h
  injection h with h1
  exact h1.symm

/-- Registering an already-registered address fails with
`AlreadyRegistered` (checked before the empty-name guard, so the new name
is irrelevant). -/
theorem registerParticipant_already {s : CState} {caller participant : Addr}
    (name : String) (now : Nat)
    (hr : hasRole s .issuer caller = true)
    (hp : (s.participants participant).isRegistered = true) :
    registerParticipant s caller participant name now = .error .AlreadyRegistered := by
  unfold registerParticipant
  simp [hr, hp]

/-- Registering with an empty name (a fresh address, authorized caller)
fails with `InvalidArgument`. -/
theorem registerParticipant_emptyName {s : CState} {caller participant : Addr} (now : Nat)
    (hr : hasRole s .issuer caller = true)
    (hp : (s.participants participant).isRegistered = false) :
    registerParticipant s caller participant "" now = .error .InvalidArgument := by
  unfold registerParticipant
  simp [hr, hp]

/-- Issuing to an unregistered recipient fails with `NotRegistered`. -/
theorem issueCertificate_notRegistered {s : CState} {caller recipient : Addr}
    (tokenURI contentHash cohort : String) (now : Nat)
    (hr : hasRole s .issuer caller = true)
    (hp : (s.participants recipient).isRegistered = false) :
    issueCertificate s caller recipient tokenURI contentHash cohort now =
      .error .NotRegistered := by
  unfold issueCertificate
  simp [hr, hp]

/-- Issuing with an empty `tokenURI` or an empty `contentHash` (registered
recipient, authorized caller) fails with `InvalidArgument`. -/
theorem issueCertificate_emptyArg {s : CState} {caller recipient : Addr}
    {tokenURI contentHash : String} (cohort : String) (now : Nat)
    (hr : hasRole s .issuer caller = true)
    (hp : (s.participants recipient).isRegistered = true)
    (he : tokenURI = "" ∨ contentHash = "") :
    issueCertificate s caller recipient tokenURI contentHash cohort now =
      .error .InvalidArgument := by
  unfold issueCertificate
  rcases he with he | he
  · simp [hr, hp, he]
  · by_cases hu : tokenURI = "" <;> simp [hr, hp, he, hu]

/-- Revoking a nonexistent token fails with `NotFound`. -/
theorem revokeCertificate_notFound {s : CState} {caller : Addr} {tokenId : Nat} (now : Nat)
    (hr : hasRole s .issuer caller = true)
    (hp : s.owners tokenId = 0) :
    revokeCertificate s caller tokenId now = .error .NotFound := by
  unfold revokeCertificate existsToken
  simp [hr, hp]

/-- Revoking an already-revoked certificate fails with `AlreadyRevoked`. -/
theorem revokeCertificate_alreadyRevoked {s : CState} {caller : Addr} {tokenId : Nat}
    (now : Nat)
    (hr : hasRole s .issuer caller = true)
    (he : s.owners tokenId ≠ 0)
    (hv : (s.certificates tokenId).isRevoked = true) :
    revokeCertificate s caller tokenId now = .error .AlreadyRevoked := by
  unfold revokeCertificate existsToken
  simp [hr, he, hv]

/-! ### Step-level facts -/

/-- A reverted call leaves the pre-state (EVM rollback, as embedded in
`step`). -/
theorem step_err_state {s : CState} {op : Op} (h : ((step s op).err).isSome = true) :
    (step s op).state = s := by
  cases op <;> simp only [step] at h ⊢ <;> split at h <;> simp_all

/-- Each call either leaves the token counter alone and returns no id, or
is a successful issuance: it bumps the counter by one and returns the new
value. -/
theorem step_counter (s : CState) (op : Op) :
    ((step s op).state.tokenIdCounter = s.tokenIdCounter ∧ (step s op).ret = none) ∨
    ((step s op).state.tokenIdCounter = s.tokenIdCounter + 1 ∧
      (step s op).ret = some (s.tokenIdCounter + 1)) := by
  cases op with
  | register caller p n now =>
    left
    simp only [step]
    cases hr : registerParticipant s caller p n now with
    | ok s' =>
      obtain ⟨-, -, -, h4⟩ := registerParticipant_ok hr
      subst h4
      exact ⟨rfl, rfl⟩
    | error e => exact ⟨rfl, rfl⟩
  | issue caller r uri chash cohort now =>
    simp only [step]
    cases hr : issueCertificate s caller r uri chash cohort now with
    | ok p =>
      obtain ⟨t, s'⟩ := p
      obtain ⟨-, -, -, -, -, -, ht, hs⟩ := issueCertificate_ok hr
      subst hs
      subst ht
      right
      exact ⟨rfl, rfl⟩
    | error e => exact Or.inl ⟨rfl, rfl⟩
  | revoke caller tokenId now =>
    left
    simp only [step]
    cases hr : revokeCertificate s caller tokenId now with
    | ok s' =>
      obtain ⟨-, -, -, h4⟩ := revokeCertificate_ok hr
      subst h4
      exact ⟨rfl, rfl⟩
    | error e => exact ⟨rfl, rfl⟩
  | transfer caller toAddr tokenId =>
    left
    simp [step, transferFrom_eq]
  | safeTransfer caller toAddr tokenId =>
    left
    simp [step, safeTransferFrom, transferFrom_eq]
  | safeTransferData caller toAddr tokenId data =>
    left
    simp [step, safeTransferFromWithData, transferFrom_eq]
  | grant caller role a =>
    left
    simp only [step]
    cases hr : grantRole s caller role a with
    | ok s' =>
      have h4 := grantRole_ok hr
      subst h4
      exact ⟨rfl, rfl⟩
    | error e => exact ⟨rfl, rfl⟩
  | revokeR caller role a =>
    left
    simp only [step]
    cases hr : revokeRole s caller role a with
    | ok s' =>
      have h4 := revokeRole_ok hr
      subst h4
      exact ⟨rfl, rfl⟩
    | error e => exact ⟨rfl, rfl⟩

/-- No call ever changes the owner of a token that already has one: the
only owner-map write is the mint of a fresh token, whose owner slot was
zero. -/
theorem step_owners_pres {s : CState} (op : Op) {t : Nat} (h : s.owners t ≠ 0) :
    (step s op).state.owners t = s.owners t := by
  cases op with
  | register caller p n now =>
    simp only [step]
    cases hr : registerParticipant s caller p n now with
    | ok s' =>
      obtain ⟨-, -, -, h4⟩ := registerParticipant_ok hr
      subst h4
      rfl
    | error e => rfl
  | issue caller r uri chash cohort now =>
    simp only [step]
    cases hr : issueCertificate s caller r uri chash cohort now with
    | ok p =>
      obtain ⟨t', s'⟩ := p
      obtain ⟨-, -, -, -, -, h6, ht, hs⟩ := issueCertificate_ok hr
      subst hs
      have hne : t ≠ t' := by
        intro hx
        exact h (by rw [hx, ht]; exact h6)
      simp [hne]
    | error e => rfl
  | revoke caller tokenId now =>
    simp only [step]
    cases hr : revokeCertificate s caller tokenId now with
    | ok s' =>
      obtain ⟨-, -, -, h4⟩ := revokeCertificate_ok hr
      subst h4
      rfl
    | error e => rfl
  | transfer caller toAddr tokenId => simp only [step, transferFrom_eq]
  | safeTransfer caller toAddr tokenId =>
    simp only [step, safeTransferFrom, transferFrom_eq]
  | safeTransferData caller toAddr tokenId data =>
    simp only [step, safeTransferFromWithData, transferFrom_eq]
  | grant caller role a =>
    simp only [step]
    cases hr : grantRole s caller role a with
    | ok s' =>
      have h4 := grantRole_ok hr
      subst h4
      rfl
    | error e => rfl
  | revokeR caller role a =>
    simp only [step]
    cases hr : revokeRole s caller role a with
    | ok s' =>
      have h4 := revokeRole_ok hr
      subst h4
      rfl
    | error e => rfl

/-! ### Reachable-state invariant -/

/-- The constructor state satisfies the invariant. -/
theorem Inv_initState (d : Addr) : Inv (initState d) := by
  refine ⟨fun t => ?_, fun t h => absurd rfl h, fun t _ => rfl⟩
  constructor
  · intro h
    exact absurd rfl h
  · intro h
    rw [show (initState d).tokenIdCounter = 0 from rfl] at h
    exact absurd h (by omega)

/-- Every call preserves the invariant. -/
theorem Inv_step {s : CState} (h : Inv s) (op : Op) : Inv (step s op).state := by
  obtain ⟨h1, h2, h3⟩ := h
  cases op with
  | register caller p n now =>
    simp only [step]
    cases hr : registerParticipant s caller p n now with
    | ok s' =>
      obtain ⟨-, -, -, h4⟩ := registerParticipant_ok hr
      subst h4
      exact ⟨h1, h2, h3⟩
    | error e => exact ⟨h1, h2, h3⟩
  | issue caller r uri chash cohort now =>
    simp only [step]
    cases hr : issueCertificate s caller r uri chash cohort now with
    | ok p =>
      obtain ⟨t', s'⟩ := p
      obtain ⟨-, -, -, -, h5, h6, ht, hs⟩ := issueCertificate_ok hr
      subst hs
      subst ht
      refine ⟨fun u => ?_, fun u hu => ?_, fun u hu => ?_⟩
      · by_cases hc : u = s.tokenIdCounter + 1
        · subst hc
          simp only [if_pos rfl]
          constructor
          · intro _; omega
          · intro _; exact h5
        · simp only [if_neg hc]
          rw [h1 u]
          omega
      · by_cases hc : u = s.tokenIdCounter + 1
        · subst hc
          simp
        · simp only [if_neg hc] at hu ⊢
          exact h2 u hu
      · have hc : u ≠ s.tokenIdCounter + 1 := by
          simp only at hu
          omega
        simp only [if_neg hc]
        exact h3 u (by simp only at hu; omega)
    | error e => exact ⟨h1, h2, h3⟩
  | revoke caller tokenId now =>
    simp only [step]
    cases hr : revokeCertificate s caller tokenId now with
    | ok s' =>
      obtain ⟨-, hex, -, h4⟩ := revokeCertificate_ok hr
      subst h4
      refine ⟨h1, fun u hu => ?_, fun u hu => ?_⟩
      · by_cases hc : u = tokenId
        · subst hc
          simp only [if_pos rfl]
          exact h2 u hu
        · simp only [if_neg hc]
          exact h2 u hu
      · have htok : tokenId ≤ s.tokenIdCounter := ((h1 tokenId).mp hex).2
        have hc : u ≠ tokenId := by simp only at hu; omega
        simp only [if_neg hc]
        exact h3 u hu
    | error e => exact ⟨h1, h2, h3⟩
  | transfer caller toAddr tokenId =>
    simp only [step, transferFrom_eq]
    exact ⟨h1, h2, h3⟩
  | safeTransfer caller toAddr tokenId =>
    simp only [step, safeTransferFrom, transferFrom_eq]
    exact ⟨h1, h2, h3⟩
  | safeTransferData caller toAddr tokenId data =>
    simp only [step, safeTransferFromWithData, transferFrom_eq]
    exact ⟨h1, h2, h3⟩
  | grant caller role a =>
    simp only [step]
    cases hr : grantRole s caller role a with
    | ok s' =>
      have h4 := grantRole_ok hr
      subst h4
      exact ⟨h1, h2, h3⟩
    | error e => exact ⟨h1, h2, h3⟩
  | revokeR caller role a =>
    simp only [step]
    cases hr : revokeRole s caller role a with
    | ok s' =>
      have h4 := revokeRole_ok hr
      subst h4
      exact ⟨h1, h2, h3⟩
    | error e => exact ⟨h1, h2, h3⟩

/-- The invariant holds along every trace. -/
theorem Inv_exec : ∀ (ops : List Op) (s : CState), Inv s → Inv (exec s ops)
  | [], _, h => h
  | op :: rest, s, h => Inv_exec rest (step s op).state (Inv_step h op)

/-- Every state reachable from deployment satisfies the invariant. -/
theorem Inv_reachable (d : Addr) (ops : List Op) : Inv (exec (initState d) ops) :=
  Inv_exec ops (initState d) (Inv_initState d)

/-! ### Trace lemmas -/

/-- The counter after a trace is the starting counter plus the number of
successful issuances. -/
theorem exec_counter : ∀ (ops : List Op) (s : CState),
    (exec s ops).tokenIdCounter = s.tokenIdCounter + (issuedIds s ops).length := by
  intro ops
  induction ops with
  | nil => intro s; simp [exec, issuedIds]
  | cons op rest ih =>
    intro s
    rcases step_counter s op with ⟨hc, hr⟩ | ⟨hc, hr⟩
    · simp [exec, issuedIds, hr, ih (step s op).state, hc]
    · simp [exec, issuedIds, hr, ih (step s op).state, hc]
      omega

/-- The successful issuances of a trace return consecutive ids starting
right above the starting counter. -/
theorem issuedIds_range' : ∀ (ops : List Op) (s : CState),
    issuedIds s ops = List.range' (s.tokenIdCounter + 1) (issuedIds s ops).length := by
  intro ops
  induction ops with
  | nil => intro s; simp [issuedIds]
  | cons op rest ih =>
    intro s
    rcases step_counter s op with ⟨hc, hr⟩ | ⟨hc, hr⟩
    · simp only [issuedIds, hr]
      rw [ih (step s op).state, hc]
      simp [List.length_range']
    · simp only [issuedIds, hr]
      rw [List.length_cons, List.range'_succ]
      congr 1
      rw [ih (step s op).state, hc]
      simp [List.length_range']

/-- The reverse index after a trace is the starting index extended by the
trace's successful issuances to that address, in call order. -/
theorem exec_pcerts : ∀ (ops : List Op) (s : CState) (r : Addr),
    (exec s ops).participantCertificates r =
      s.participantCertificates r ++ issuedTo s r ops := by
  intro ops
  induction ops with
  | nil => intro s r; simp [exec, issuedTo]
  | cons op rest ih =>
    intro s r
    rw [exec, ih (step s op).state r]
    cases op with
    | issue caller recipient uri chash cohort now =>
      simp only [step]
      cases hr : issueCertificate s caller recipient uri chash cohort now with
      | ok p =>
        obtain ⟨t', s'⟩ := p
        obtain ⟨-, -, -, -, -, -, -, hs⟩ := issueCertificate_ok hr
        subst hs
        simp only [issuedTo, step, hr]
        by_cases hrec : recipient = r
        · subst hrec
          simp [List.append_assoc]
        · simp [hrec, Ne.symm hrec]
      | error e =>
        simp [issuedTo, step, hr]
    | register caller p n now =>
      cases hr : registerParticipant s caller p n now with
      | ok s' =>
        obtain ⟨-, -, -, h4⟩ := registerParticipant_ok hr
        subst h4
        simp [issuedTo, step, hr]
      | error e => simp [issuedTo, step, hr]
    | revoke caller tokenId now =>
      cases hr : revokeCertificate s caller tokenId now with
      | ok s' =>
        obtain ⟨-, -, -, h4⟩ := revokeCertificate_ok hr
        subst h4
        simp [issuedTo, step, hr]
      | error e => simp [issuedTo, step, hr]
    | transfer caller toAddr tokenId => simp [issuedTo, step, transferFrom_eq]
    | safeTransfer caller toAddr tokenId =>
      simp [issuedTo, step, safeTransferFrom, transferFrom_eq]
    | safeTransferData caller toAddr tokenId data =>
      simp [issuedTo, step, safeTransferFromWithData, transferFrom_eq]
    | grant caller role a =>
      cases hr : grantRole s caller role a with
      | ok s' =>
        have h4 := grantRole_ok hr
        subst h4
        simp [issuedTo, step, hr]
      | error e => simp [issuedTo, step, hr]
    | revokeR caller role a =>
      cases hr : revokeRole s caller role a with
      | ok s' =>
        have h4 := revokeRole_ok hr
        subst h4
        simp [issuedTo, step, hr]
      | error e => simp [issuedTo, step, hr]

/-- Once a certificate with id at most the counter is revoked, no single
call un-revokes it. -/
theorem step_isRevoked_mono {s : CState} (op : Op) {t : Nat}
    (hle : t ≤ s.tokenIdCounter)
    (h : (s.certificates t).isRevoked = true) :
    ((step s op).state.certificates t).isRevoked = true := by
  cases op with
  | register caller p n now =>
    simp only [step]
    cases hr : registerParticipant s caller p n now with
    | ok s' =>
      obtain ⟨-, -, -, h4⟩ := registerParticipant_ok hr
      subst h4
      exact h
    | error e => exact h
  | issue caller r uri chash cohort now =>
    simp only [step]
    cases hr : issueCertificate s caller r uri chash cohort now with
    | ok p =>
      obtain ⟨t', s'⟩ := p
      obtain ⟨-, -, -, -, -, -, ht, hs⟩ := issueCertificate_ok hr
      subst hs
      have hne : t ≠ t' := by omega
      simpa [hne] using h
    | error e => exact h
  | revoke caller tokenId now =>
    simp only [step]
    cases hr : revokeCertificate s caller tokenId now with
    | ok s' =>
      obtain ⟨-, -, -, h4⟩ := revokeCertificate_ok hr
      subst h4
      by_cases hc : t = tokenId
      · subst hc
        simp
      · simpa [hc] using h
    | error e => exact h
  | transfer caller toAddr tokenId =>
    simp only [step, transferFrom_eq]
    exact h
  | safeTransfer caller toAddr tokenId =>
    simp only [step, safeTransferFrom, transferFrom_eq]
    exact h
  | safeTransferData caller toAddr tokenId data =>
    simp only [step, safeTransferFromWithData, transferFrom_eq]
    exact h
  | grant caller role a =>
    simp only [step]
    cases hr : grantRole s caller role a with
    | ok s' =>
      have h4 := grantRole_ok hr
      subst h4
      exact h
    | error e => exact h
  | revokeR caller role a =>
    simp only [step]
    cases hr : revokeRole s caller role a with
    | ok s' =>
      have h4 := revokeRole_ok hr
      subst h4
      exact h
    | error e => exact h

/-! ### The claims -/

/-- C1: on any state, a transfer attempt on an issued certificate — via
`transferFrom` or either `safeTransferFrom` variant, for any caller and
destination — reverts with `NonTransferable`; no call whatsoever changes
the owner of an issued token; and the mint case (source address zero)
passes the `beforeTokenTransfer` choke point, so only the initial
assignment is exempt. -/
theorem soulbound_transfers_revert (s : CState) (caller toAddr : Addr)
    (tokenId : Nat) (data : String) (h : s.owners tokenId ≠ 0) :
    transferFrom s caller toAddr tokenId = .error .NonTransferable ∧
    safeTransferFrom s caller toAddr tokenId = .error .NonTransferable ∧
    safeTransferFromWithData s caller toAddr tokenId data = .error .NonTransferable ∧
    (∀ op : Op, (step s op).state.owners tokenId = s.owners tokenId) ∧
    beforeTokenTransfer 0 toAddr tokenId = .ok () := by
  refine ⟨?_, ?_, ?_, fun op => step_owners_pres op h, rfl⟩
  · rw [transferFrom_eq]
    simp [h]
  · unfold safeTransferFrom
    rw [transferFrom_eq]
    simp [h]
  · unfold safeTransferFromWithData
    rw [transferFrom_eq]
    simp [h]

/-- Concrete check of C1: certificate 1 of the worked example cannot be
moved and keeps its owner across an attempted transfer. -/
theorem soulbound_transfers_revert_witness :
    transferFrom wS2 2 3 1 = .error .NonTransferable ∧
    safeTransferFrom wS2 2 3 1 = .error .NonTransferable ∧
    safeTransferFromWithData wS2 2 3 1 "" = .error .NonTransferable ∧
    (step wS2 (.transfer 2 3 1)).state.owners 1 = wS2.owners 1 := by
  have h := soulbound_transfers_revert wS2 2 3 1 "" (by decide)
  exact ⟨h.1, h.2.1, h.2.2.1, h.2.2.2.1 (.transfer 2 3 1)⟩

/-- C2: from deployment, the ids returned by the successful
`issueCertificate` calls of any trace are exactly `[1, 2, …, n]`: 1-based,
strictly increasing, gapless, and — since every success returns an id
strictly larger than all earlier ones, revocations included — never
reused; the k-th success (0-indexed `k`) returns `k + 1`. -/
theorem tokenIds_sequential (d : Addr) (ops : List Op) :
    issuedIds (initState d) ops =
      List.range' 1 (issuedIds (initState d) ops).length ∧
    ∀ (k : Nat) (hk : k < (issuedIds (initState d) ops).length),
      (issuedIds (initState d) ops).get ⟨k, hk⟩ = k + 1 := by
  have h := issuedIds_range' ops (initState d)
  rw [show (initState d).tokenIdCounter + 1 = 1 from rfl] at h
  refine ⟨h, fun k hk => ?_⟩
  have h2 := List.get_of_eq h ⟨k, hk⟩
  rw [h2]
  simp [List.getElem_range']
  omega

/-- Concrete check of C2: a trace with two issuances (one interleaved
failure and one revocation) returns ids `[1, 2]`, whose element 1 is 2. -/
theorem tokenIds_sequential_witness :
    issuedIds (initState 1)
      [.register 1 2 "Alice" 5, .issue 1 2 "u" "h" "c" 6,
       .issue 1 3 "u" "h" "c" 6, .revoke 1 1 7, .register 1 3 "Bob" 8,
       .issue 1 3 "u2" "h2" "c2" 9] = [1, 2] ∧
    (issuedIds (initState 1)
      [.register 1 2 "Alice" 5, .issue 1 2 "u" "h" "c" 6,
       .issue 1 3 "u" "h" "c" 6, .revoke 1 1 7, .register 1 3 "Bob" 8,
       .issue 1 3 "u2" "h2" "c2" 9]).get ⟨1, by decide⟩ = 2 := by
  have h := tokenIds_sequential 1
    [.register 1 2 "Alice" 5, .issue 1 2 "u" "h" "c" 6,
     .issue 1 3 "u" "h" "c" 6, .revoke 1 1 7, .register 1 3 "Bob" 8,
     .issue 1 3 "u2" "h2" "c2" 9]
  refine ⟨?_, h.2 1 (by decide)⟩
  rw [h.1]
  decide

/-- C3: round-trip through `verifyCertificate`. After a successful
`issueCertificate(recipient, uri, hash, cohort)` returning `t` (issued at
a positive block time), `verifyCertificate t` returns
`(true, recipient, hash, cohort, issuedAt)` with `issuedAt > 0`; after a
subsequent successful `revokeCertificate t` the tuple is unchanged except
`isValid`, which becomes `false`. -/
theorem verify_roundtrip (s : CState) (caller recipient : Addr)
    (uri chash cohort : String) (now t : Nat) (s' : CState)
    (hnow : 0 < now)
    (h : issueCertificate s caller recipient uri chash cohort now = .ok (t, s')) :
    verifyCertificate s' t = (true, recipient, chash, cohort, now) ∧
    0 < (verifyCertificate s' t).2.2.2.2 ∧
    ∀ (caller' : Addr) (now' : Nat) (s'' : CState),
      revokeCertificate s' caller' t now' = .ok s'' →
      verifyCertificate s'' t = (false, recipient, chash, cohort, now) := by
  obtain ⟨-, -, -, -, h5, -, ht, hs⟩ := issueCertificate_ok h
  subst hs
  subst ht
  have hv : verifyCertificate
      { s with
        tokenIdCounter := s.tokenIdCounter + 1
        owners := fun u => if u = s.tokenIdCounter + 1 then recipient else s.owners u
        tokenURIs := fun u => if u = s.tokenIdCounter + 1 then uri else s.tokenURIs u
        certificates := fun u =>
          if u = s.tokenIdCounter + 1 then
            { recipient := recipient, contentHash := chash, cohort := cohort,
              issuedAt := now, isRevoked := false }
          else s.certificates u
        participantCertificates := fun a =>
          if a = recipient then s.participantCertificates a ++ [s.tokenIdCounter + 1]
          else s.participantCertificates a } (s.tokenIdCounter + 1) =
      (true, recipient, chash, cohort, now) := by
    unfold verifyCertificate existsToken
    simp [h5]
  refine ⟨hv, by rw [hv]; exact hnow, fun caller' now' s'' hrev => ?_⟩
  obtain ⟨-, -, -, hs''⟩ := revokeCertificate_ok hrev
  subst hs''
  unfold verifyCertificate existsToken
  simp [h5]

/-- Concrete check of C3: the worked example's certificate verifies as
valid after issuance and as invalid — with every other field unchanged —
after revocation. -/
theorem verify_roundtrip_witness :
    verifyCertificate wS2 1 = (true, 2, "sha256:deadbeef", "2024-Q1", 6) ∧
    verifyCertificate wS3 1 = (false, 2, "sha256:deadbeef", "2024-Q1", 6) := by
  have h := verify_roundtrip wS1 1 2 "ipfs://X" "sha256:deadbeef" "2024-Q1" 6 1 wS2
    (by decide) rfl
  exact ⟨h.1, h.2.2 1 7 wS3 rfl⟩

/-- C4: `verifyCertificate` on an id that no successful issuance of the
trace ever allocated does not fail: it returns the defined sentinel tuple
`(false, 0, "", "", 0)`. -/
theorem verify_unissued (d : Addr) (ops : List Op) (t : Nat)
    (h : t ∉ issuedIds (initState d) ops) :
    verifyCertificate (exec (initState d) ops) t = (false, 0, "", "", 0) := by
  obtain ⟨h1, -, -⟩ := Inv_reachable d ops
  have hlen := exec_counter ops (initState d)
  rw [show (initState d).tokenIdCounter = 0 from rfl, Nat.zero_add] at hlen
  have hr := issuedIds_range' ops (initState d)
  rw [show (initState d).tokenIdCounter + 1 = 1 from rfl] at hr
  have howner : (exec (initState d) ops).owners t = 0 := by
    by_contra hx
    obtain ⟨ha, hb⟩ := (h1 t).mp hx
    apply h
    rw [hr, List.mem_range'_1]
    omega
  unfold verifyCertificate existsToken
  simp [howner]

/-- Concrete check of C4: id 5 was never issued in a two-call trace and
verifies to the sentinel tuple. -/
theorem verify_unissued_witness :
    5 ∉ issuedIds (initState 1) [.register 1 2 "Alice" 5, .issue 1 2 "u" "h" "c" 6] ∧
    verifyCertificate
      (exec (initState 1) [.register 1 2 "Alice" 5, .issue 1 2 "u" "h" "c" 6]) 5 =
      (false, 0, "", "", 0) :=
  ⟨by decide, verify_unissued 1 [.register 1 2 "Alice" 5, .issue 1 2 "u" "h" "c" 6] 5
    (by decide)⟩

/-- C5: for an authorized caller, `issueCertificate` reverts with
`NotRegistered` on any unregistered recipient, and with `InvalidArgument`
whenever `tokenURI` or `contentHash` is empty (for a registered
recipient — the registration check runs first); any failed call leaves
the whole state, in particular the counter, untouched, and a successful
issuance from that same state still receives the next sequential id. -/
theorem issue_error_paths (s : CState) (caller recipient : Addr)
    (uri chash cohort : String) (now : Nat)
    (hr : hasRole s .issuer caller = true) :
    ((s.participants recipient).isRegistered = false →
      issueCertificate s caller recipient uri chash cohort now = .error .NotRegistered) ∧
    ((s.participants recipient).isRegistered = true → uri = "" ∨ chash = "" →
      issueCertificate s caller recipient uri chash cohort now = .error .InvalidArgument) ∧
    (∀ e, issueCertificate s caller recipient uri chash cohort now = .error e →
      (step s (.issue caller recipient uri chash cohort now)).state = s ∧
      (step s (.issue caller recipient uri chash cohort now)).state.tokenIdCounter =
        s.tokenIdCounter) ∧
    (∀ (caller2 recipient2 : Addr) (u2 hh2 c2 : String) (n2 t : Nat) (s' : CState),
      issueCertificate s caller2 recipient2 u2 hh2 c2 n2 = .ok (t, s') →
      t = s.tokenIdCounter + 1) := by
  refine ⟨fun hp => issueCertificate_notRegistered uri chash cohort now hr hp,
    fun hp he => issueCertificate_emptyArg cohort now hr hp he,
    fun e he => ?_,
    fun caller2 recipient2 u2 hh2 c2 n2 t s' hok =>
      (issueCertificate_ok hok).2.2.2.2.2.2.1⟩
  have h1 : (step s (.issue caller recipient uri chash cohort now)).err = some e := by
    simp [step, he]
  have hst := @step_err_state s (.issue caller recipient uri chash cohort now)
    (by rw [h1]; rfl)
  exact ⟨hst, by rw [hst]⟩

/-- Concrete check of C5: issuing to unregistered address 3 reverts with
`NotRegistered` and changes nothing; an empty URI reverts with
`InvalidArgument`; the next successful issuance still gets id 1. -/
theorem issue_error_paths_witness :
    issueCertificate wS1 1 3 "u" "h" "c" 6 = .error .NotRegistered ∧
    issueCertificate wS1 1 2 "" "h" "c" 6 = .error .InvalidArgument ∧
    (step wS1 (.issue 1 3 "u" "h" "c" 6)).state = wS1 ∧
    1 = wS1.tokenIdCounter + 1 := by
  have h₁ := issue_error_paths wS1 1 3 "u" "h" "c" 6 (by decide)
  have h₂ := issue_error_paths wS1 1 2 "" "h" "c" 6 (by decide)
  have hnr := h₁.1 (by decide)
  exact ⟨hnr, h₂.2.1 (by decide) (Or.inl rfl), (h₁.2.2.1 .NotRegistered hnr).1,
    h₁.2.2.2 1 2 "ipfs://X" "sha256:deadbeef" "2024-Q1" 6 1 wS2 rfl⟩

/-- C6: after a successful `registerParticipant(a, n)`, a second
registration of `a` (authorized caller, any new name) reverts with
`AlreadyRegistered` while `isRegistered(a)` stays `true` and `name(a)`
stays `n`, the failed call changing nothing; and registering a fresh
address with an empty name reverts with `InvalidArgument` and changes no
state. -/
theorem register_once (s : CState) (caller caller' a : Addr) (n n2 : String)
    (now now' : Nat) (s' : CState)
    (h : registerParticipant s caller a n now = .ok s') :
    (hasRole s' .issuer caller' = true →
      registerParticipant s' caller' a n2 now' = .error .AlreadyRegistered) ∧
    (s'.participants a).isRegistered = true ∧
    (s'.participants a).name = n ∧
    (step s' (.register caller' a n2 now')).state = s' ∧
    (∀ (s2 : CState) (c2 a2 : Addr) (now2 : Nat),
      hasRole s2 .issuer c2 = true → (s2.participants a2).isRegistered = false →
      registerParticipant s2 c2 a2 "" now2 = .error .InvalidArgument ∧
      (step s2 (.register c2 a2 "" now2)).state = s2) := by
  obtain ⟨-, -, -, hs⟩ := registerParticipant_ok h
  have hreg : (s'.participants a).isRegistered = true := by rw [hs]; simp
  have hname : (s'.participants a).name = n := by rw [hs]; simp
  have hsecond : (step s' (.register caller' a n2 now')).state = s' := by
    by_cases hrole : hasRole s' .issuer caller' = true
    · simp [step, registerParticipant_already n2 now' hrole hreg]
    · have hx : hasRole s' .issuer caller' = false := by
        cases hy : hasRole s' .issuer caller'
        · rfl
        · exact absurd hy hrole
      have hu : registerParticipant s' caller' a n2 now' = .error .Unauthorized := by
        unfold registerParticipant
        simp [hx]
      simp [step, hu]
  refine ⟨fun hrole => registerParticipant_already n2 now' hrole hreg,
    hreg, hname, hsecond, fun s2 c2 a2 now2 hr2 hp2 => ?_⟩
  have he := registerParticipant_emptyName now2 hr2 hp2
  exact ⟨he, by simp [step, he]⟩

/-- Concrete check of C6: re-registering address 2 reverts with
`AlreadyRegistered` leaving its record intact, and an empty-name
registration of fresh address 4 reverts with `InvalidArgument` changing
nothing. -/
theorem register_once_witness :
    registerParticipant wS1 1 2 "Mallory" 9 = .error .AlreadyRegistered ∧
    (wS1.participants 2).isRegistered = true ∧
    (wS1.participants 2).name = "Alice" ∧
    (step wS1 (.register 1 2 "Mallory" 9)).state = wS1 ∧
    registerParticipant wS1 1 4 "" 9 = .error .InvalidArgument := by
  have h := register_once wS0 1 1 2 "Alice" "Mallory" 5 9 wS1 rfl
  have h5 := h.2.2.2.2 wS1 1 4 9 (by decide) (by decide)
  exact ⟨h.1 (by decide), h.2.1, h.2.2.1, h.2.2.2.1, h5.1⟩

/-- C7: `revokeCertificate` reverts with `NotFound` on a nonexistent
token (authorized caller); after a successful revocation the flag is
`true`, a second revocation reverts with `AlreadyRevoked` leaving the
state intact; and in every reachable state a revoked flag survives every
further call — it never returns to `false`. -/
theorem revoke_once_forever :
    (∀ (s : CState) (caller : Addr) (t now : Nat),
      hasRole s .issuer caller = true → s.owners t = 0 →
      revokeCertificate s caller t now = .error .NotFound) ∧
    (∀ (s : CState) (caller caller' : Addr) (t now now' : Nat) (s' : CState),
      revokeCertificate s caller t now = .ok s' →
      (s'.certificates t).isRevoked = true ∧
      (hasRole s' .issuer caller' = true →
        revokeCertificate s' caller' t now' = .error .AlreadyRevoked) ∧
      (step s' (.revoke caller' t now')).state = s') ∧
    (∀ (d : Addr) (ops : List Op) (t : Nat) (op : Op),
      ((exec (initState d) ops).certificates t).isRevoked = true →
      ((step (exec (initState d) ops) op).state.certificates t).isRevoked = true) := by
  refine ⟨fun s caller t now hr hp => revokeCertificate_notFound now hr hp, ?_, ?_⟩
  · intro s caller caller' t now now' s' hok
    obtain ⟨-, hex, -, hs⟩ := revokeCertificate_ok hok
    have hrev : (s'.certificates t).isRevoked = true := by rw [hs]; simp
    have hex' : s'.owners t ≠ 0 := by rw [hs]; exact hex
    refine ⟨hrev, fun hrole => revokeCertificate_alreadyRevoked now' hrole hex' hrev, ?_⟩
    by_cases hrole : hasRole s' .issuer caller' = true
    · simp [step, revokeCertificate_alreadyRevoked now' hrole hex' hrev]
    · have hx : hasRole s' .issuer caller' = false := by
        cases hy : hasRole s' .issuer caller'
        · rfl
        · exact absurd hy hrole
      have hu : revokeCertificate s' caller' t now' = .error .Unauthorized := by
        unfold revokeCertificate
        simp [hx]
      simp [step, hu]
  · intro d ops t op hrev
    obtain ⟨-, -, h3⟩ := Inv_reachable d ops
    have hle : t ≤ (exec (initState d) ops).tokenIdCounter := by
      by_contra hx
      have he := h3 t (by omega)
      rw [he] at hrev
      simp [Certificate.empty] at hrev
    exact step_isRevoked_mono op hle hrev

/-- Concrete check of C7: revoking before any issuance reverts with
`NotFound`; the worked example's revocation sticks, a second revocation
reverts with `AlreadyRevoked`, and the flag survives a further call. -/
theorem revoke_once_forever_witness :
    revokeCertificate wS1 1 1 6 = .error .NotFound ∧
    (wS3.certificates 1).isRevoked = true ∧
    revokeCertificate wS3 1 1 8 = .error .AlreadyRevoked ∧
    ((step wS3 (.issue 1 2 "u" "h" "c" 9)).state.certificates 1).isRevoked = true := by
  have h := revoke_once_forever
  have h2 := h.2.1 wS2 1 1 1 7 8 wS3 rfl
  refine ⟨h.1 wS1 1 1 6 (by decide) (by decide), h2.1, h2.2.1 (by decide), ?_⟩
  exact h.2.2 1
    [.register 1 2 "Alice" 5, .issue 1 2 "ipfs://X" "sha256:deadbeef" "2024-Q1" 6,
     .revoke 1 1 7] 1 (.issue 1 2 "u" "h" "c" 9) (by decide)

/-- C8: atomicity of every mutating operation — whenever a call (any of
the registry's entry points, `registerParticipant`, `issueCertificate`
and `revokeCertificate` included) reverts with any error, the entire
state (participants, certificates, reverse index, counter, owners, URIs,
roles) is exactly the pre-call state. -/
theorem failed_calls_atomic (s : CState) (op : Op)
    (h : ((step s op).err).isSome = true) :
    (step s op).state = s :=
  step_err_state h

/-- Concrete check of C8: a failed re-registration leaves the state
bit-for-bit unchanged. -/
theorem failed_calls_atomic_witness :
    ((step wS1 (.register 1 2 "Eve" 9)).err).isSome = true ∧
    (step wS1 (.register 1 2 "Eve" 9)).state = wS1 :=
  ⟨by decide, failed_calls_atomic wS1 (.register 1 2 "Eve" 9) (by decide)⟩

/-- C9: from deployment, `getParticipantCertificates r` returns exactly
the ids of the certificates successfully issued to `r`, in issuance
order, and in particular the empty sequence when no certificate was ever
issued to `r`. -/
theorem reverse_index_exact (d : Addr) (ops : List Op) (r : Addr) :
    getParticipantCertificates (exec (initState d) ops) r =
      issuedTo (initState d) r ops ∧
    (issuedTo (initState d) r ops = [] →
      getParticipantCertificates (exec (initState d) ops) r = []) := by
  have h := exec_pcerts ops (initState d) r
  constructor
  · unfold getParticipantCertificates
    rw [h]
    rfl
  · intro he
    unfold getParticipantCertificates
    rw [h, he]
    rfl

/-- Concrete check of C9: address 2 of the worked trace owns exactly
`[1]`, and address 7 owns nothing. -/
theorem reverse_index_exact_witness :
    getParticipantCertificates
      (exec (initState 1) [.register 1 2 "Alice" 5, .issue 1 2 "u" "h" "c" 6]) 2 =
      issuedTo (initState 1) 2 [.register 1 2 "Alice" 5, .issue 1 2 "u" "h" "c" 6] ∧
    getParticipantCertificates
      (exec (initState 1) [.register 1 2 "Alice" 5, .issue 1 2 "u" "h" "c" 6]) 7 = [] :=
  ⟨(reverse_index_exact 1 [.register 1 2 "Alice" 5, .issue 1 2 "u" "h" "c" 6] 2).1,
    (reverse_index_exact 1 [.register 1 2 "Alice" 5, .issue 1 2 "u" "h" "c" 6] 7).2
      (by decide)⟩

/-- C10: in every reachable state a token exists (nonzero owner) iff its
id lies in `1..counter`; the ERC-721 owner of every existing token is the
stored certificate's recipient; and no call — burns and transfers both
being nonzero-source moves the choke point rejects — ever changes the
owner of an existing token. -/
theorem token_existence_invariant (d : Addr) (ops : List Op) :
    (∀ t, (exec (initState d) ops).owners t ≠ 0 ↔
      1 ≤ t ∧ t ≤ (exec (initState d) ops).tokenIdCounter) ∧
    (∀ t, (exec (initState d) ops).owners t ≠ 0 →
      (exec (initState d) ops).owners t =
        ((exec (initState d) ops).certificates t).recipient) ∧
    (∀ (op : Op) (t : Nat), (exec (initState d) ops).owners t ≠ 0 →
      (step (exec (initState d) ops) op).state.owners t =
        (exec (initState d) ops).owners t) := by
  obtain ⟨h1, h2, -⟩ := Inv_reachable d ops
  exact ⟨h1, h2, fun op t ht => step_owners_pres op ht⟩

/-- Concrete check of C10: in the worked trace token 1 exists, its owner
is the stored recipient, and a transfer attempt leaves the owner. -/
theorem token_existence_invariant_witness :
    (exec (initState 1) [.register 1 2 "Alice" 5, .issue 1 2 "u" "h" "c" 6]).owners 1 ≠ 0 ∧
    (exec (initState 1) [.register 1 2 "Alice" 5, .issue 1 2 "u" "h" "c" 6]).owners 1 =
      ((exec (initState 1)
        [.register 1 2 "Alice" 5, .issue 1 2 "u" "h" "c" 6]).certificates 1).recipient ∧
    (step (exec (initState 1) [.register 1 2 "Alice" 5, .issue 1 2 "u" "h" "c" 6])
        (.transfer 2 3 1)).state.owners 1 =
      (exec (initState 1) [.register 1 2 "Alice" 5, .issue 1 2 "u" "h" "c" 6]).owners 1 := by
  have h := token_existence_invariant 1 [.register 1 2 "Alice" 5, .issue 1 2 "u" "h" "c" 6]
  have hex : (exec (initState 1)
      [.register 1 2 "Alice" 5, .issue 1 2 "u" "h" "c" 6]).owners 1 ≠ 0 :=
    (h.1 1).mpr (by decide)
  exact ⟨hex, h.2.1 1 hex, h.2.2 (.transfer 2 3 1) 1 hex⟩

end ClaudeCodeCertificate
